import Mathlib

/-!
kubeskoop: node resolver/cache and TCP-reset probe handles.

A shallow embedding of

* `pkg/skoop/nodemanager/net_node_manager.go` (`defaultNetNodeManager`), and
* `pkg/exporter/probe/tracetcpreset/bpf_bpfel.go` (`bpfInspTcpresetEventT`, `_BpfClose`
  and the `Close` methods of the generated handles),

followed by the properties established about them.

Conventions of the embedding.

* A Go result pair `(value, err)` is a Lean pair whose second component is an
  `Option GoError`; `none` is the `nil` error. A nilable value (pointer, interface) is an
  `Option`; `none` is `nil`.
* The collaborators of the resolver (Endpoint Locator, Collector, Network Plugin, parent
  resolver) are state transformers over an arbitrary type `W`, the state of everything
  outside the resolver. Every invocation of a collaborator is recorded in a call log.
* Go pointers that the source only passes around are numbered references.
-/

/-! ## Go errors -/

/-- Go `error` values: the ones a collaborator hands over (a numbered reference and the
text of `Error()`), and the ones that `fmt.Errorf` builds. -/
inductive GoError where
  | collaborator (ref : Nat) (msg : String)
  | Errorf (msg : String)
deriving DecidableEq, Repr

/-- The method `Error()`, which is also what the `%v` verb prints for an error. -/
def GoError.Error : GoError → String
  | .collaborator _ msg => msg
  | .Errorf msg => msg

namespace nodemanager

/-! ## Values of the packages `model`, `k8s`, `collector` and `plugin` -/

/-- Modelled from the spec: `model.NetNodeType` is declared in package `model`, which is not
part of this source tree. The spec's data gives it as an enumeration: "`Type`
(enumerated: Pod, Node/Host, Generic)". -/
inductive NetNodeType where
  | Pod
  | Node
  | Generic
deriving DecidableEq, Repr

/-- Modelled from the spec: the text of a node type is declared in package `model`, which is
not part of this source tree. The source prints a node type with the `%s` verb, and the spec
names the three values Pod, Node/Host and Generic: the text printed is the name of the
value, in lower case. -/
def NetNodeType.format : NetNodeType → String
  | .Pod => "pod"
  | .Node => "node"
  | .Generic => "generic"

/-- Modelled from the spec: the constant `model.NetNodeTypePod` is declared in package
`model`, which is not part of this source tree; it is the spec's Pod. -/
abbrev model.NetNodeTypePod : NetNodeType := .Pod

/-- Modelled from the spec: the constant `model.NetNodeTypeNode` is declared in package
`model`, which is not part of this source tree; it is the spec's Node/Host. -/
abbrev model.NetNodeTypeNode : NetNodeType := .Node

/-- Modelled from the spec: the constant `model.NetNodeTypeGeneric` is declared in package
`model`, which is not part of this source tree; it is the spec's Generic. -/
abbrev model.NetNodeTypeGeneric : NetNodeType := .Generic

/-- The fields of `model.NetNode` set by the composite literal in `GetNetNodeFromID`;
`Actions` is a `map[*model.Link]*model.Action`, here the list of its entries. -/
structure NetNode where
  «Type» : NetNodeType
  ID : String
  Actions : List (Nat × Nat)
deriving DecidableEq, Repr

/-- Non-nil values of the interface `model.NetNodeAction`: a `*plugin.GenericNetNode`
allocated by the resolver (`ptr` is its address), or a node handed over by the Network
Plugin or by the parent resolver. -/
inductive NetNodeAction where
  | GenericNetNode (ptr : Nat) (NetNode : NetNode)
  | external (ref : Nat)
deriving DecidableEq, Repr

/-- The fields of the Kubernetes pod object that `GetNetNodeFromID` reads. -/
structure Pod where
  Namespace : String
  Name : String
deriving DecidableEq, Repr

/-- Snapshot returned by `collector.Manager.CollectPod`; the resolver only passes it on. -/
structure PodInfo where
  ref : Nat
deriving DecidableEq, Repr

/-- Snapshot returned by `collector.Manager.CollectNode`; the resolver only passes it on. -/
structure NodeInfo where
  ref : Nat
deriving DecidableEq, Repr

/-! ## The world outside the resolver -/

/-- One invocation of a collaborator, with its arguments. -/
inductive Call where
  | GetPodFromIP (ip : String)
  | CollectPod (ns : String) (name : String)
  | CollectNode (name : String)
  | CreatePod (podInfo : PodInfo)
  | CreateNode (nodeInfo : NodeInfo)
  | parentGetNetNodeFromID (nodeType : NetNodeType) (id : String)
deriving DecidableEq, Repr

/-- An entry of the call log: the invocation and the error it returned. -/
structure Invocation where
  call : Call
  err : Option GoError
deriving DecidableEq, Repr

/-- Everything outside the resolver: the state of the collaborators, the log of the
collaborator invocations made so far (oldest first), and the number of objects the
resolver has allocated so far. -/
structure World (W : Type) where
  state : W
  calls : List Invocation
  heap : Nat

/-- Invoke a collaborator: run it on the collaborators' state and log the call together
with the error it returns. -/
def World.invoke {W α : Type} (w : World W) (c : Call)
    (f : W → (α × Option GoError) × W) : (α × Option GoError) × World W :=
  ((f w.state).1,
    { w with state := (f w.state).2, calls := w.calls ++ [⟨c, (f w.state).1.2⟩] })

/-- Allocate a fresh object (`&T{...}`): its address, and the world after the allocation. -/
def World.new {W : Type} (w : World W) : Nat × World W :=
  (w.heap, { w with heap := w.heap + 1 })

/-- The Endpoint Locator, `*k8s.IPCache`. -/
structure IPCache (W : Type) where
  GetPodFromIP : String → W → (Option Pod × Option GoError) × W

/-- The Collector, `collector.Manager`. -/
structure Manager (W : Type) where
  CollectPod : String → String → W → (PodInfo × Option GoError) × W
  CollectNode : String → W → (NodeInfo × Option GoError) × W

/-- The Network Plugin, `plugin.Plugin`. -/
structure Plugin (W : Type) where
  CreatePod : PodInfo → W → (Option NetNodeAction × Option GoError) × W
  CreateNode : NodeInfo → W → (Option NetNodeAction × Option GoError) × W

/-- The interface `NetNodeManager`, as the type of a parent resolver. -/
structure NetNodeManager (W : Type) where
  GetNetNodeFromID : NetNodeType → String → W → (Option NetNodeAction × Option GoError) × W

/-! ## `sync.Map` -/

/-- The entries of a `sync.Map` with string keys, in a sequential execution. -/
abbrev SyncMap (V : Type) := List (String × V)

/-- The method `Load` of `sync.Map`. -/
def SyncMap.Load {V : Type} : SyncMap V → String → Option V
  | [], _ => none
  | (k, v) :: rest, key => if k = key then some v else SyncMap.Load rest key

/-- The method `Store` of `sync.Map`: the value of an existing key is overwritten. -/
def SyncMap.Store {V : Type} : SyncMap V → String → V → SyncMap V
  | [], key, value => [(key, value)]
  | (k, v) :: rest, key, value =>
    if k = key then (key, value) :: rest else (k, v) :: SyncMap.Store rest key value

/-! ## `defaultNetNodeManager` -/

/-- The struct `defaultNetNodeManager`, without the field `client`, which
`GetNetNodeFromID` does not use. -/
structure defaultNetNodeManager (W : Type) where
  parent : Option (NetNodeManager W)
  ipCache : IPCache W
  plugin : Plugin W
  collectorManager : Manager W
  cache : SyncMap NetNodeAction

/-- The result of `GetNetNodeFromID`: the pair it returns, the resolver and the world after
the call. -/
abbrev Outcome (W : Type) :=
  (Option NetNodeAction × Option GoError) × defaultNetNodeManager W × World W

/-- The constructor `NewNetNodeManager`: no parent, empty cache. -/
def NewNetNodeManager {W : Type} (ipCache : IPCache W) (networkPlugin : Plugin W)
    (collectorManager : Manager W) : defaultNetNodeManager W :=
  { parent := none, ipCache := ipCache, plugin := networkPlugin,
    collectorManager := collectorManager, cache := [] }

/-- The constructor `NewNetNodeManagerWithParent`. -/
def NewNetNodeManagerWithParent {W : Type} (parent : NetNodeManager W) (ipCache : IPCache W)
    (networkPlugin : Plugin W) (collectorManager : Manager W) : defaultNetNodeManager W :=
  { parent := some parent, ipCache := ipCache, plugin := networkPlugin,
    collectorManager := collectorManager, cache := [] }

/-- The method `cacheKey`: `fmt.Sprintf("%s---%s", typ, id)`. -/
def cacheKey (typ : NetNodeType) (id : String) : String :=
  typ.format ++ "---" ++ id

/-- The end of `GetNetNodeFromID`, shared by the branches of the `switch` that fall
through: `if ret != nil { m.cache.Store(key, ret) }; return ret, nil`. -/
def defaultNetNodeManager.storeAndReturn {W : Type} (m : defaultNetNodeManager W)
    (key : String) (ret : Option NetNodeAction) (w : World W) : Outcome W :=
  match ret with
  | some node => ((some node, none), { m with cache := m.cache.Store key node }, w)
  | none => ((none, none), m, w)

/-- The case `model.NetNodeTypePod` of the `switch` in `GetNetNodeFromID`. -/
def defaultNetNodeManager.resolvePod {W : Type} (m : defaultNetNodeManager W)
    (key : String) (id : String) (w : World W) : Outcome W :=
  let r₁ := w.invoke (.GetPodFromIP id) (m.ipCache.GetPodFromIP id)
  match r₁.1.2 with
  | some err => ((none, some err), m, r₁.2)
  | none =>
    match r₁.1.1 with
    | none => ((none, some (.Errorf ("k8s pod not found from ip " ++ id))), m, r₁.2)
    | some k8sPod =>
      let r₂ := r₁.2.invoke (.CollectPod k8sPod.Namespace k8sPod.Name)
        (m.collectorManager.CollectPod k8sPod.Namespace k8sPod.Name)
      match r₂.1.2 with
      | some err =>
        ((none, some (.Errorf ("error run collector for pod: " ++ err.Error))), m, r₂.2)
      | none =>
        let r₃ := r₂.2.invoke (.CreatePod r₂.1.1) (m.plugin.CreatePod r₂.1.1)
        match r₃.1.2 with
        | some err => ((none, some (.Errorf ("error create pod: " ++ err.Error))), m, r₃.2)
        | none => m.storeAndReturn key r₃.1.1 r₃.2

/-- The case `model.NetNodeTypeNode` of the `switch` in `GetNetNodeFromID`. -/
def defaultNetNodeManager.resolveNode {W : Type} (m : defaultNetNodeManager W)
    (key : String) (id : String) (w : World W) : Outcome W :=
  let r₁ := w.invoke (.CollectNode id) (m.collectorManager.CollectNode id)
  match r₁.1.2 with
  | some err =>
    ((none, some (.Errorf ("error run collector for node: " ++ err.Error))), m, r₁.2)
  | none =>
    let r₂ := r₁.2.invoke (.CreateNode r₁.1.1) (m.plugin.CreateNode r₁.1.1)
    match r₂.1.2 with
    | some err => ((none, some (.Errorf ("error create node: " ++ err.Error))), m, r₂.2)
    | none => m.storeAndReturn key r₂.1.1 r₂.2

/-- The `default` case of the `switch` in `GetNetNodeFromID`. -/
def defaultNetNodeManager.resolveDefault {W : Type}
    (m : defaultNetNodeManager W) (key : String) (nodeType : NetNodeType) (id : String)
    (w : World W) : Outcome W :=
  match m.parent with
  | some parent =>
    let r := w.invoke (.parentGetNetNodeFromID nodeType id)
      (parent.GetNetNodeFromID nodeType id)
    match r.1.2 with
    | some err => ((none, some err), m, r.2)
    | none => m.storeAndReturn key r.1.1 r.2
  | none =>
    let a := w.new
    m.storeAndReturn key
      (some (.GenericNetNode a.1
        { «Type» := model.NetNodeTypeGeneric, ID := id, Actions := [] })) a.2

/-- The method `GetNetNodeFromID`. -/
def defaultNetNodeManager.GetNetNodeFromID {W : Type}
    (m : defaultNetNodeManager W) (nodeType : NetNodeType) (id : String) (w : World W) :
    Outcome W :=
  let key := cacheKey nodeType id
  match m.cache.Load key with
  | some node => ((some node, none), m, w)
  | none =>
    if nodeType = model.NetNodeTypePod then m.resolvePod key id w
    else if nodeType = model.NetNodeTypeNode then m.resolveNode key id w
    else m.resolveDefault key nodeType id w

/-- What happens between two observations of one resolver used sequentially: a call of
`GetNetNodeFromID` whose result is dropped, or a change of the collaborators' state that
the resolver has no part in (the cluster changes). -/
inductive Step (W : Type) where
  | call (nodeType : NetNodeType) (id : String)
  | change (f : W → W)

/-- One step on a resolver and its world. -/
def Step.apply {W : Type} :
    Step W → defaultNetNodeManager W × World W → defaultNetNodeManager W × World W
  | .call nodeType id, (m, w) => (m.GetNetNodeFromID nodeType id w).2
  | .change f, (m, w) => (m, { w with state := f w.state })

/-- A finite sequence of steps, first to last. -/
def run {W : Type} (steps : List (Step W))
    (s : defaultNetNodeManager W × World W) : defaultNetNodeManager W × World W :=
  steps.foldl (fun s step => step.apply s) s

/-- The three ways a resolution that missed the cache can end: with an error (nil node,
resolver untouched), with a nil node and a nil error (resolver untouched), or with a node
that has been stored under the key. -/
def MissShape {W : Type} (m : defaultNetNodeManager W) (key : String) (o : Outcome W) : Prop :=
  (o.1.1 = none ∧ o.1.2 ≠ none ∧ o.2.1 = m) ∨
  (o.1 = (none, none) ∧ o.2.1 = m) ∨
  (∃ node, o.1 = (some node, none) ∧ o.2.1 = { m with cache := m.cache.Store key node })

/-- The invariant of the cache of a resolver without a parent: the entry under the key of a
node type other than Pod and Node is a generic node for the id of that key. -/
def GenericEntries {W : Type} (m : defaultNetNodeManager W) : Prop :=
  ∀ (t : NetNodeType) (id : String) (node : NetNodeAction),
    t ≠ model.NetNodeTypePod → t ≠ model.NetNodeTypeNode →
    m.cache.Load (cacheKey t id) = some node →
    ∃ ptr, node = .GenericNetNode ptr
      { «Type» := model.NetNodeTypeGeneric, ID := id, Actions := [] }

/-- Invocations of the Collector. -/
def Call.isCollect : Call → Bool
  | .CollectPod _ _ => true
  | .CollectNode _ => true
  | _ => false

/-- Invocations of the Network Plugin. -/
def Call.isCreate : Call → Bool
  | .CreatePod _ => true
  | .CreateNode _ => true
  | _ => false

/-! ## A sample cluster

A concrete , with concrete collaborators over a clock of type `Nat`, at which the
statements below are instantiated. -/

/-- A locator that knows one pod address. -/
def sampleIPCache : IPCache Nat :=
  { GetPodFromIP := fun ip t =>
      if ip = "10.244.1.5" then ((some { Namespace := "default", Name := "web-0" }, none), t)
      else ((none, none), t) }

/-- A collector whose node collection fails at time `0` and succeeds afterwards; every
collection advances the clock. -/
def sampleCollector : Manager Nat :=
  { CollectPod := fun _ _ t => (({ ref := 1 }, none), t + 1)
    CollectNode := fun _ t =>
      if t = 0 then (({ ref := 0 }, some (.collaborator 7 "boom")), t + 1)
      else (({ ref := 2 }, none), t + 1) }

/-- A plugin that builds a node from every snapshot. -/
def samplePlugin : Plugin Nat :=
  { CreatePod := fun _ t => ((some (.external 100), none), t)
    CreateNode := fun _ t => ((some (.external 200), none), t) }

/-- A parent resolver that fails for one id. -/
def sampleParent : NetNodeManager Nat :=
  { GetNetNodeFromID := fun _ id t =>
      if id = "unreachable" then ((none, some (.collaborator 9 "parent failed")), t)
      else ((some (.external 300), none), t) }

/-- A fresh resolver without a parent. -/
def sampleManager : defaultNetNodeManager Nat :=
  NewNetNodeManager sampleIPCache samplePlugin sampleCollector

/-- A fresh resolver with a parent. -/
def sampleChild : defaultNetNodeManager Nat :=
  NewNetNodeManagerWithParent sampleParent sampleIPCache samplePlugin sampleCollector

/-- The world at time `t`, before any call. -/
def sampleWorld (t : Nat) : World Nat :=
  { state := t, calls := [], heap := 0 }

/-- Three requests for one node in a row. -/
def sampleRetries : List (Step Nat) :=
  [.call model.NetNodeTypeNode "worker-1", .call model.NetNodeTypeNode "worker-1",
    .call model.NetNodeTypeNode "worker-1"]

/-- Further use of the sample resolver: a pod is resolved, time passes, a node is resolved. -/
def sampleSteps : List (Step Nat) :=
  [.call model.NetNodeTypePod "10.244.1.5", .change (fun t => t + 5), .call model.NetNodeTypeNode "worker-1"]

end nodemanager

namespace tracetcpreset

/-! ## `bpfInspTcpresetEventT`

Unsigned fields are natural numbers and `StackId` is an integer; `Valid` states the ranges
of the Go field types. -/

/-- The type of the fields `Saddr` and `Daddr`: `struct{ V6addr [16]uint8 }`. -/
structure Addr where
  V6addr : List Nat
deriving DecidableEq, Repr

/-- The type of the field `Tuple`. -/
structure Tuple where
  Saddr : Addr
  Daddr : Addr
  Sport : Nat
  Dport : Nat
  L3Proto : Nat
  L4Proto : Nat
  Pad : Nat
deriving DecidableEq, Repr

/-- The type of the field `SkbMeta`. -/
structure SkbMeta where
  Netns : Nat
  Mark : Nat
  Ifindex : Nat
  Len : Nat
  Mtu : Nat
  SkState : Nat
  Protocol : Nat
  Pad : Nat
deriving DecidableEq, Repr

/-- The struct `bpfInspTcpresetEventT`; the blank field `_ [7]byte` holds no value. -/
structure bpfInspTcpresetEventT where
  «Type» : Nat
  State : Nat
  Tuple : Tuple
  SkbMeta : SkbMeta
  StackId : Int
deriving DecidableEq, Repr

/-- The values of `[16]uint8`: sixteen bytes. -/
def Addr.Valid (a : Addr) : Prop :=
  a.V6addr.length = 16 ∧ ∀ b ∈ a.V6addr, b < 256

/-- The values of the Go field types of `Tuple`. -/
def Tuple.Valid (t : Tuple) : Prop :=
  t.Saddr.Valid ∧ t.Daddr.Valid ∧ t.Sport < 2 ^ 16 ∧ t.Dport < 2 ^ 16 ∧ t.L3Proto < 2 ^ 16 ∧
  t.L4Proto < 2 ^ 8 ∧ t.Pad < 2 ^ 8

/-- The values of the Go field types of `SkbMeta`. -/
def SkbMeta.Valid (s : SkbMeta) : Prop :=
  s.Netns < 2 ^ 32 ∧ s.Mark < 2 ^ 32 ∧ s.Ifindex < 2 ^ 32 ∧ s.Len < 2 ^ 32 ∧ s.Mtu < 2 ^ 32 ∧
  s.SkState < 2 ^ 32 ∧ s.Protocol < 2 ^ 16 ∧ s.Pad < 2 ^ 16

/-- The values of the Go field types of `bpfInspTcpresetEventT`. -/
def bpfInspTcpresetEventT.Valid (e : bpfInspTcpresetEventT) : Prop :=
  e.Type < 2 ^ 32 ∧ e.State < 2 ^ 8 ∧ e.Tuple.Valid ∧ e.SkbMeta.Valid ∧
  -(2 ^ 63) ≤ e.StackId ∧ e.StackId < 2 ^ 63

instance (a : Addr) : Decidable a.Valid := inferInstanceAs (Decidable (_ ∧ _))

instance (t : Tuple) : Decidable t.Valid := inferInstanceAs (Decidable (_ ∧ _))

instance (s : SkbMeta) : Decidable s.Valid := inferInstanceAs (Decidable (_ ∧ _))

instance (e : bpfInspTcpresetEventT) : Decidable e.Valid := inferInstanceAs (Decidable (_ ∧ _))

/-! ## The binary layout of the event record

The source declares the record type only; the functions that write and read its bytes are
not part of this source tree. -/

/-- Modelled from the spec: the writer of an unsigned field is missing from the source tree;
the spec's layout is little-endian. The `n` bytes of `v`, least significant first. -/
def putUint : Nat → Nat → List Nat
  | 0, _ => []
  | n + 1, v => v % 256 :: putUint n (v / 256)

/-- Modelled from the spec: the reader of an unsigned field is missing from the source tree;
the spec's layout is little-endian. The value of bytes given least significant first. -/
def getUint : List Nat → Nat
  | [] => 0
  | b :: bs => b + 256 * getUint bs

/-- Modelled from the spec: the writer of the `i64` field is missing from the source tree.
The two's complement of a 64-bit signed integer, as an unsigned one. -/
def toUint64 (s : Int) : Nat :=
  (s % 2 ^ 64).toNat

/-- Modelled from the spec: the reader of the `i64` field is missing from the source tree.
The 64-bit signed integer of a two's complement. -/
def ofUint64 (u : Nat) : Int :=
  if u < 2 ^ 63 then (u : Int) else (u : Int) - 2 ^ 64

/-- Modelled from the spec: the record writer is missing from the source tree. The fields in
declaration order, little-endian, without padding between fields:
`Type:u32, State:u8, [tuple: Saddr:16B, Daddr:16B, Sport:u16, Dport:u16, L3Proto:u16,
L4Proto:u8, pad:u8], [skbMeta: Netns:u32, Mark:u32, Ifindex:u32, Len:u32, Mtu:u32,
SkState:u32, Protocol:u16, pad:u16], reserved:7B, StackId:i64`. -/
def encode (e : bpfInspTcpresetEventT) (reserved : List Nat) : List Nat :=
  putUint 4 e.Type ++ putUint 1 e.State ++
  e.Tuple.Saddr.V6addr ++ e.Tuple.Daddr.V6addr ++
  putUint 2 e.Tuple.Sport ++ putUint 2 e.Tuple.Dport ++ putUint 2 e.Tuple.L3Proto ++
  putUint 1 e.Tuple.L4Proto ++ putUint 1 e.Tuple.Pad ++
  putUint 4 e.SkbMeta.Netns ++ putUint 4 e.SkbMeta.Mark ++ putUint 4 e.SkbMeta.Ifindex ++
  putUint 4 e.SkbMeta.Len ++ putUint 4 e.SkbMeta.Mtu ++ putUint 4 e.SkbMeta.SkState ++
  putUint 2 e.SkbMeta.Protocol ++ putUint 2 e.SkbMeta.Pad ++
  reserved ++ putUint 8 (toUint64 e.StackId)

/-- Modelled from the spec: the record reader is missing from the source tree. The next `n`
bytes of the input and the rest of it; no result when fewer than `n` bytes are left. -/
def readBytes (n : Nat) (bs : List Nat) : Option (List Nat × List Nat) :=
  if n ≤ bs.length then some (bs.take n, bs.drop n) else none

/-- Modelled from the spec: the record reader is missing from the source tree. The next
unsigned little-endian field of `n` bytes and the rest of the input. -/
def readUint (n : Nat) (bs : List Nat) : Option (Nat × List Nat) :=
  match readBytes n bs with
  | some (field, rest) => some (getUint field, rest)
  | none => none

/-- Modelled from the spec: the record reader is missing from the source tree. The fields of
the tuple, in the order and with the widths of the layout of `encode`, and the rest of the
input. -/
def readTuple (bs : List Nat) : Option (Tuple × List Nat) :=
  (readBytes 16 bs).bind fun (saddr, bs) =>
  (readBytes 16 bs).bind fun (daddr, bs) =>
  (readUint 2 bs).bind fun (sport, bs) =>
  (readUint 2 bs).bind fun (dport, bs) =>
  (readUint 2 bs).bind fun (l3Proto, bs) =>
  (readUint 1 bs).bind fun (l4Proto, bs) =>
  (readUint 1 bs).bind fun (pad, bs) =>
  some ({ Saddr := { V6addr := saddr }, Daddr := { V6addr := daddr }, Sport := sport,
          Dport := dport, L3Proto := l3Proto, L4Proto := l4Proto, Pad := pad }, bs)

/-- Modelled from the spec: the record reader is missing from the source tree. The fields of
the packet metadata, in the order and with the widths of the layout of `encode`, and the
rest of the input. -/
def readSkbMeta (bs : List Nat) : Option (SkbMeta × List Nat) :=
  (readUint 4 bs).bind fun (netns, bs) =>
  (readUint 4 bs).bind fun (mark, bs) =>
  (readUint 4 bs).bind fun (ifindex, bs) =>
  (readUint 4 bs).bind fun (len, bs) =>
  (readUint 4 bs).bind fun (mtu, bs) =>
  (readUint 4 bs).bind fun (skState, bs) =>
  (readUint 2 bs).bind fun (protocol, bs) =>
  (readUint 2 bs).bind fun (pad, bs) =>
  some ({ Netns := netns, Mark := mark, Ifindex := ifindex, Len := len, Mtu := mtu,
          SkState := skState, Protocol := protocol, Pad := pad }, bs)

/-- Modelled from the spec: the record reader is missing from the source tree. The fields are
read in the order and with the widths of the layout of `encode`; the seven reserved bytes
are skipped. No result when the input is shorter than the record. -/
def decode (bs : List Nat) : Option bpfInspTcpresetEventT :=
  (readUint 4 bs).bind fun (type, bs) =>
  (readUint 1 bs).bind fun (state, bs) =>
  (readTuple bs).bind fun (tuple, bs) =>
  (readSkbMeta bs).bind fun (skbMeta, bs) =>
  (readBytes 7 bs).bind fun (_, bs) =>
  (readUint 8 bs).bind fun (stackId, _) =>
  some { «Type» := type, State := state, Tuple := tuple, SkbMeta := skbMeta,
         StackId := ofUint64 stackId }

/-- A sample event: a reset sent from `10.244.1.5:8080` to `10.244.2.7:51234`. -/
def sampleEvent : bpfInspTcpresetEventT :=
  { «Type» := 1, State := 7,
    Tuple :=
      { Saddr := { V6addr := [0, 0, 0, 0, 0, 0, 0, 0, 0, 0, 255, 255, 10, 244, 1, 5] },
        Daddr := { V6addr := [0, 0, 0, 0, 0, 0, 0, 0, 0, 0, 255, 255, 10, 244, 2, 7] },
        Sport := 8080, Dport := 51234, L3Proto := 2048, L4Proto := 6, Pad := 0 },
    SkbMeta :=
      { Netns := 4026532281, Mark := 0, Ifindex := 3, Len := 40, Mtu := 1500, SkState := 1,
        Protocol := 2048, Pad := 0 },
    StackId := -14 }

/-! ## Closing the loaded objects -/

/-- A loaded kernel resource, `*ebpf.Program` or `*ebpf.Map`, as far as `Close` is
concerned: its file descriptor and the error with which closing it ends. -/
structure Handle where
  fd : Nat
  closeErr : Option GoError
deriving DecidableEq, Repr

/-- An `io.Closer`: its method `Close` returns an error and extends the list of the file
descriptors on which `Close` has been invoked, oldest first. -/
abbrev Closer := List Nat → Option GoError × List Nat

/-- The method `Close` of a kernel resource. -/
def Handle.Close (h : Handle) : Closer :=
  fun closed => (h.closeErr, closed ++ [h.fd])

/-- The function `_BpfClose`. -/
def _BpfClose : List Closer → Closer
  | [], closed => (none, closed)
  | closer :: closers, closed =>
    match closer closed with
    | (some err, closed) => (some err, closed)
    | (none, closed) => _BpfClose closers closed

/-- The struct `bpfPrograms`. -/
structure bpfPrograms where
  InspRstrx : Handle
  TraceSendactive : Handle
  TraceSendreset : Handle
deriving DecidableEq, Repr

/-- The method `Close` of `bpfPrograms`. -/
def bpfPrograms.Close (p : bpfPrograms) : Closer :=
  _BpfClose [p.InspRstrx.Close, p.TraceSendactive.Close, p.TraceSendreset.Close]

/-- The struct `bpfMaps`. -/
structure bpfMaps where
  InspTcpresetEvents : Handle
  InspTcpresetStack : Handle
deriving DecidableEq, Repr

/-- The method `Close` of `bpfMaps`. -/
def bpfMaps.Close (m : bpfMaps) : Closer :=
  _BpfClose [m.InspTcpresetEvents.Close, m.InspTcpresetStack.Close]

/-- The struct `bpfObjects`, which embeds `bpfPrograms` and `bpfMaps`. -/
structure bpfObjects where
  bpfPrograms : bpfPrograms
  bpfMaps : bpfMaps
deriving DecidableEq, Repr

/-- The method `Close` of `bpfObjects`. -/
def bpfObjects.Close (o : bpfObjects) : Closer :=
  _BpfClose [o.bpfPrograms.Close, o.bpfMaps.Close]

/-- The five resources of a `bpfObjects`, in the order in which `Close` reaches them. -/
def bpfObjects.handles (o : bpfObjects) : List Handle :=
  [o.bpfPrograms.InspRstrx, o.bpfPrograms.TraceSendactive, o.bpfPrograms.TraceSendreset,
    o.bpfMaps.InspTcpresetEvents, o.bpfMaps.InspTcpresetStack]

/-- The handles of a list up to and including the first one whose close fails; all of them
when no close fails. -/
def upToFirstFailure : List Handle → List Handle
  | [] => []
  | h :: hs => if h.closeErr = none then h :: upToFirstFailure hs else [h]

/-- Sample objects: the close of the first program fails, every other close succeeds. -/
def sampleObjects : bpfObjects :=
  { bpfPrograms :=
      { InspRstrx := { fd := 3, closeErr := some (.collaborator 1 "bad file descriptor") },
        TraceSendactive := { fd := 4, closeErr := none },
        TraceSendreset := { fd := 5, closeErr := none } },
    bpfMaps :=
      { InspTcpresetEvents := { fd := 6, closeErr := none },
        InspTcpresetStack := { fd := 7, closeErr := none } } }

end tracetcpreset

/-! # Properties -/

namespace nodemanager

/-! ## `sync.Map` -/

theorem SyncMap.Load_Store {V : Type} (c : SyncMap V) (key key' : String) (value : V) :
    SyncMap.Load (SyncMap.Store c key value) key' =
      if key = key' then some value else SyncMap.Load c key' := by
  induction c with
  | nil => simp [SyncMap.Store, SyncMap.Load]
  | cons e rest ih =>
    obtain ⟨k, v⟩ := e
    by_cases hk : k = key
    · subst hk
      by_cases hk' : k = key' <;> simp [SyncMap.Store, SyncMap.Load, hk']
    · by_cases hk' : k = key'
      · subst hk'
        simp [SyncMap.Store, SyncMap.Load, hk, Ne.symm hk]
      · simp [SyncMap.Store, SyncMap.Load, hk, hk', ih]

/-! ## The shape of an outcome -/

theorem storeAndReturn_shape {W : Type} (m : defaultNetNodeManager W) (key : String)
    (ret : Option NetNodeAction) (w : World W) :
    MissShape m key (m.storeAndReturn key ret w) := by
  cases ret with
  | none => exact Or.inr (Or.inl ⟨rfl, rfl⟩)
  | some node => exact Or.inr (Or.inr ⟨node, rfl, rfl⟩)

theorem resolvePod_shape {W : Type} (m : defaultNetNodeManager W) (key id : String)
    (w : World W) : MissShape m key (m.resolvePod key id w) := by
  unfold defaultNetNodeManager.resolvePod
  simp only
  split
  · exact Or.inl ⟨rfl, by simp, rfl⟩
  · split
    · exact Or.inl ⟨rfl, by simp, rfl⟩
    · split
      · exact Or.inl ⟨rfl, by simp, rfl⟩
      · split
        · exact Or.inl ⟨rfl, by simp, rfl⟩
        · exact storeAndReturn_shape _ _ _ _

theorem resolveNode_shape {W : Type} (m : defaultNetNodeManager W) (key id : String)
    (w : World W) : MissShape m key (m.resolveNode key id w) := by
  unfold defaultNetNodeManager.resolveNode
  simp only
  split
  · exact Or.inl ⟨rfl, by simp, rfl⟩
  · split
    · exact Or.inl ⟨rfl, by simp, rfl⟩
    · exact storeAndReturn_shape _ _ _ _

theorem resolveDefault_shape {W : Type} (m : defaultNetNodeManager W)
    (key : String) (nodeType : NetNodeType) (id : String) (w : World W) :
    MissShape m key (m.resolveDefault key nodeType id w) := by
  unfold defaultNetNodeManager.resolveDefault
  split
  · simp only
    split
    · exact Or.inl ⟨rfl, by simp, rfl⟩
    · exact storeAndReturn_shape _ _ _ _
  · exact storeAndReturn_shape _ _ _ _

theorem GetNetNodeFromID_hit {W : Type} (m : defaultNetNodeManager W)
    (nodeType : NetNodeType) (id : String) (w : World W) (node : NetNodeAction)
    (h : m.cache.Load (cacheKey nodeType id) = some node) :
    m.GetNetNodeFromID nodeType id w = ((some node, none), m, w) := by
  simp [defaultNetNodeManager.GetNetNodeFromID, h]

theorem GetNetNodeFromID_miss {W : Type} (m : defaultNetNodeManager W)
    (nodeType : NetNodeType) (id : String) (w : World W)
    (h : m.cache.Load (cacheKey nodeType id) = none) :
    m.GetNetNodeFromID nodeType id w =
      if nodeType = model.NetNodeTypePod then m.resolvePod (cacheKey nodeType id) id w
      else if nodeType = model.NetNodeTypeNode then m.resolveNode (cacheKey nodeType id) id w
      else m.resolveDefault (cacheKey nodeType id) nodeType id w := by
  simp [defaultNetNodeManager.GetNetNodeFromID, h]

theorem GetNetNodeFromID_miss_shape {W : Type} (m : defaultNetNodeManager W)
    (nodeType : NetNodeType) (id : String) (w : World W)
    (h : m.cache.Load (cacheKey nodeType id) = none) :
    MissShape m (cacheKey nodeType id) (m.GetNetNodeFromID nodeType id w) := by
  rw [GetNetNodeFromID_miss m nodeType id w h]
  split
  · exact resolvePod_shape _ _ _ _
  · split
    · exact resolveNode_shape _ _ _ _
    · exact resolveDefault_shape _ _ _ _ _

/-- An entry of the cache survives every call of `GetNetNodeFromID`. -/
theorem GetNetNodeFromID_keeps {W : Type} (m : defaultNetNodeManager W)
    (nodeType : NetNodeType) (id : String) (w : World W) (key : String) (node : NetNodeAction)
    (h : m.cache.Load key = some node) :
    (m.GetNetNodeFromID nodeType id w).2.1.cache.Load key = some node := by
  cases hl : m.cache.Load (cacheKey nodeType id) with
  | some n => rw [GetNetNodeFromID_hit m nodeType id w n hl]; exact h
  | none =>
    have hne : cacheKey nodeType id ≠ key := by
      intro he; rw [he, h] at hl; cases hl
    rcases GetNetNodeFromID_miss_shape m nodeType id w hl with h1 | h1 | ⟨n, _, h1⟩
    · rw [h1.2.2]; exact h
    · rw [h1.2]; exact h
    · rw [h1]; simp [SyncMap.Load_Store, hne, h]

/-- A node returned with a nil error is the entry of the cache under the key of the request. -/
theorem GetNetNodeFromID_cached {W : Type} (m : defaultNetNodeManager W)
    (nodeType : NetNodeType) (id : String) (w : World W) (node : NetNodeAction)
    (h : (m.GetNetNodeFromID nodeType id w).1 = (some node, none)) :
    (m.GetNetNodeFromID nodeType id w).2.1.cache.Load (cacheKey nodeType id) =
      some node := by
  cases hl : m.cache.Load (cacheKey nodeType id) with
  | some n =>
    rw [GetNetNodeFromID_hit m nodeType id w n hl] at h ⊢
    simp at h
    rw [← h]; exact hl
  | none =>
    rcases GetNetNodeFromID_miss_shape m nodeType id w hl with h1 | h1 | ⟨n, h1, h2⟩
    · rw [h] at h1; simp at h1
    · rw [h] at h1; simp at h1
    · rw [h2]
      rw [h] at h1
      simp at h1
      simp [SyncMap.Load_Store, h1]

theorem run_keeps {W : Type} (steps : List (Step W))
    (s : defaultNetNodeManager W × World W) (key : String) (node : NetNodeAction)
    (h : s.1.cache.Load key = some node) :
    (run steps s).1.cache.Load key = some node := by
  induction steps generalizing s with
  | nil => exact h
  | cons step rest ih =>
    simp only [run, List.foldl_cons]
    apply ih
    obtain ⟨m, w⟩ := s
    cases step with
    | call nodeType id => exact GetNetNodeFromID_keeps m nodeType id w key node h
    | change f => exact h

/-! ## Cache hits -/

@[simp] theorem storeAndReturn_world {W : Type} (m : defaultNetNodeManager W) (key : String)
    (ret : Option NetNodeAction) (w : World W) : (m.storeAndReturn key ret w).2.2 = w := by
  cases ret <;> rfl

@[simp] theorem storeAndReturn_result {W : Type} (m : defaultNetNodeManager W) (key : String)
    (ret : Option NetNodeAction) (w : World W) : (m.storeAndReturn key ret w).1 = (ret, none) := by
  cases ret <;> rfl

/-- The default case with a parent: one invocation of the parent with the same request, and
the parent's result. -/
theorem resolveDefault_parent {W : Type} (m : defaultNetNodeManager W)
    (parent : NetNodeManager W) (hparent : m.parent = some parent) (key : String)
    (nodeType : NetNodeType) (id : String) (w : World W) :
    (m.resolveDefault key nodeType id w).2.2 =
      { w with
        state := (parent.GetNetNodeFromID nodeType id w.state).2
        calls := w.calls ++ [⟨.parentGetNetNodeFromID nodeType id,
          (parent.GetNetNodeFromID nodeType id w.state).1.2⟩] } ∧
    (m.resolveDefault key nodeType id w).1 =
      match (parent.GetNetNodeFromID nodeType id w.state).1.2 with
      | some err => (none, some err)
      | none => ((parent.GetNetNodeFromID nodeType id w.state).1.1, none) := by
  rcases h1 : parent.GetNetNodeFromID nodeType id w.state with ⟨⟨ret, err⟩, st⟩
  cases err <;> simp [defaultNetNodeManager.resolveDefault, hparent, World.invoke, h1]

/-- The default case without a parent: a fresh generic node, no error, no invocation. -/
theorem resolveDefault_generic {W : Type} (m : defaultNetNodeManager W)
    (hparent : m.parent = none) (key : String) (nodeType : NetNodeType) (id : String)
    (w : World W) :
    m.resolveDefault key nodeType id w =
      ((some (.GenericNetNode w.heap
          { «Type» := model.NetNodeTypeGeneric, ID := id, Actions := [] }), none),
        { m with cache := m.cache.Store key (.GenericNetNode w.heap
          { «Type» := model.NetNodeTypeGeneric, ID := id, Actions := [] }) },
        { w with heap := w.heap + 1 }) := by
  simp [defaultNetNodeManager.resolveDefault, hparent, World.new,
    defaultNetNodeManager.storeAndReturn]

/-- C1, as amended. Once `GetNetNodeFromID` has returned a non-nil node with a nil error for
`(nodeType, id)`, then after any finite sequence of further calls on the resolver and of
changes of the collaborators' state, the call for `(nodeType, id)` returns that same node
with a nil error and leaves the resolver (its cache) and the world (the call log, the
collaborators' state, the heap) exactly as they were: no collaborator is invoked. So from
the returning call on, the key costs no further collection or construction; and if the
returning call was a cache miss for a Pod or a Node, it invoked the Collector exactly once
and the Network Plugin exactly once. -/
theorem GetNetNodeFromID_write_once {W : Type} (m : defaultNetNodeManager W)
    (nodeType : NetNodeType) (id : String) (w : World W) (node : NetNodeAction)
    (h : (m.GetNetNodeFromID nodeType id w).1 = (some node, none))
    (steps : List (Step W)) :
    (run steps (m.GetNetNodeFromID nodeType id w).2).1.GetNetNodeFromID
        nodeType id (run steps (m.GetNetNodeFromID nodeType id w).2).2 =
      ((some node, none), run steps (m.GetNetNodeFromID nodeType id w).2) ∧
    (m.cache.Load (cacheKey nodeType id) = none →
      nodeType = model.NetNodeTypePod ∨ nodeType = model.NetNodeTypeNode →
      ∃ new, (m.GetNetNodeFromID nodeType id w).2.2.calls = w.calls ++ new ∧
        new.countP (fun i => i.call.isCollect) = 1 ∧
        new.countP (fun i => i.call.isCreate) = 1) ∧
    (∃ new, (m.GetNetNodeFromID nodeType id w).2.2.calls = w.calls ++ new ∧
      new.countP (fun i => i.call.isCollect) ≤ 1 ∧
      new.countP (fun i => i.call.isCreate) ≤ 1) := by
  have hsecond : m.cache.Load (cacheKey nodeType id) = none →
      nodeType = model.NetNodeTypePod ∨ nodeType = model.NetNodeTypeNode →
      ∃ new, (m.GetNetNodeFromID nodeType id w).2.2.calls = w.calls ++ new ∧
        new.countP (fun i => i.call.isCollect) = 1 ∧
        new.countP (fun i => i.call.isCreate) = 1 := ?second
  refine ⟨?_, hsecond, ?_⟩
  · exact GetNetNodeFromID_hit _ nodeType id _ node
      (run_keeps steps _ _ node (GetNetNodeFromID_cached m nodeType id w node h))
  · cases hl : m.cache.Load (cacheKey nodeType id) with
    | some n =>
      exact ⟨[], by rw [GetNetNodeFromID_hit m nodeType id w n hl]; simp, by simp, by simp⟩
    | none =>
      by_cases htype : nodeType = model.NetNodeTypePod ∨ nodeType = model.NetNodeTypeNode
      · obtain ⟨new, hc, h1, h2⟩ := hsecond hl htype
        exact ⟨new, hc, le_of_eq h1, le_of_eq h2⟩
      · have hp : nodeType ≠ model.NetNodeTypePod := fun hp => htype (Or.inl hp)
        have hn : nodeType ≠ model.NetNodeTypeNode := fun hn => htype (Or.inr hn)
        rw [GetNetNodeFromID_miss m nodeType id w hl, if_neg hp, if_neg hn]
        cases hpar : m.parent with
        | none =>
          exact ⟨[], by rw [resolveDefault_generic m hpar]; simp, by simp, by simp⟩
        | some parent =>
          exact ⟨[⟨.parentGetNetNodeFromID nodeType id,
              (parent.GetNetNodeFromID nodeType id w.state).1.2⟩],
            by rw [(resolveDefault_parent m parent hpar _ nodeType id w).1],
            by simp [Call.isCollect], by simp [Call.isCreate]⟩
  case second =>
    intro hmiss htype
    rw [GetNetNodeFromID_miss m nodeType id w hmiss] at h ⊢
    by_cases hp : nodeType = model.NetNodeTypePod
    · rw [if_pos hp] at h ⊢
      rcases h1 : m.ipCache.GetPodFromIP id w.state with ⟨⟨pod, err1⟩, st1⟩
      cases err1 with
      | some e => simp [defaultNetNodeManager.resolvePod, World.invoke, h1] at h
      | none =>
        cases pod with
        | none => simp [defaultNetNodeManager.resolvePod, World.invoke, h1] at h
        | some k8sPod =>
          rcases h2 : m.collectorManager.CollectPod k8sPod.Namespace k8sPod.Name st1 with
            ⟨⟨info, err2⟩, st2⟩
          cases err2 with
          | some e => simp [defaultNetNodeManager.resolvePod, World.invoke, h1, h2] at h
          | none =>
            rcases h3 : m.plugin.CreatePod info st2 with ⟨⟨ret, err3⟩, st3⟩
            cases err3 with
            | some e => simp [defaultNetNodeManager.resolvePod, World.invoke, h1, h2, h3] at h
            | none =>
              refine ⟨[⟨.GetPodFromIP id, none⟩,
                ⟨.CollectPod k8sPod.Namespace k8sPod.Name, none⟩, ⟨.CreatePod info, none⟩],
                ?_, by simp [Call.isCollect], by simp [Call.isCreate]⟩
              simp [defaultNetNodeManager.resolvePod, World.invoke, h1, h2, h3]
    · rcases htype with hp' | hn
      · exact absurd hp' hp
      · rw [if_neg hp, if_pos hn] at h ⊢
        rcases h1 : m.collectorManager.CollectNode id w.state with ⟨⟨info, err1⟩, st1⟩
        cases err1 with
        | some e => simp [defaultNetNodeManager.resolveNode, World.invoke, h1] at h
        | none =>
          rcases h2 : m.plugin.CreateNode info st1 with ⟨⟨ret, err2⟩, st2⟩
          cases err2 with
          | some e => simp [defaultNetNodeManager.resolveNode, World.invoke, h1, h2] at h
          | none =>
            refine ⟨[⟨.CollectNode id, none⟩, ⟨.CreateNode info, none⟩],
              ?_, by simp [Call.isCollect], by simp [Call.isCreate]⟩
            simp [defaultNetNodeManager.resolveNode, World.invoke, h1, h2]

theorem GetNetNodeFromID_write_once_witness :
    (sampleManager.GetNetNodeFromID model.NetNodeTypeNode "worker-1" (sampleWorld 1)).1 =
      (some (.external 200), none) ∧
    ((run sampleSteps
        (sampleManager.GetNetNodeFromID model.NetNodeTypeNode "worker-1"
          (sampleWorld 1)).2).1.GetNetNodeFromID model.NetNodeTypeNode "worker-1"
      (run sampleSteps
        (sampleManager.GetNetNodeFromID model.NetNodeTypeNode "worker-1" (sampleWorld 1)).2).2).1 =
      (some (.external 200), none) :=
  ⟨by decide, by
    rw [(GetNetNodeFromID_write_once sampleManager model.NetNodeTypeNode "worker-1" (sampleWorld 1)
      (.external 200) (by decide) sampleSteps).1]⟩

/-! ## Failures -/

/-- A call that returns an error missed the cache. -/
theorem GetNetNodeFromID_error_miss {W : Type} (m : defaultNetNodeManager W)
    (nodeType : NetNodeType) (id : String) (w : World W)
    (h : (m.GetNetNodeFromID nodeType id w).1.2 ≠ none) :
    m.cache.Load (cacheKey nodeType id) = none := by
  cases hl : m.cache.Load (cacheKey nodeType id) with
  | none => rfl
  | some n => rw [GetNetNodeFromID_hit m nodeType id w n hl] at h; simp at h

/-- The Pod case logs the locator first; it returns a nil error when every invocation it
logs returned a nil error and the locator found a pod. -/
theorem resolvePod_calls {W : Type} (m : defaultNetNodeManager W) (key id : String)
    (w : World W) :
    ∃ rest, (m.resolvePod key id w).2.2.calls =
        w.calls ++ ⟨.GetPodFromIP id, (m.ipCache.GetPodFromIP id w.state).1.2⟩ :: rest ∧
      ((m.ipCache.GetPodFromIP id w.state).1.2 = none → (∀ i ∈ rest, i.err = none) →
        (m.ipCache.GetPodFromIP id w.state).1.1 ≠ none → (m.resolvePod key id w).1.2 = none) := by
  rcases h1 : m.ipCache.GetPodFromIP id w.state with ⟨⟨pod, err1⟩, st1⟩
  cases err1 with
  | some e => exact ⟨[], by simp [defaultNetNodeManager.resolvePod, World.invoke, h1], by simp⟩
  | none =>
    cases pod with
    | none => exact ⟨[], by simp [defaultNetNodeManager.resolvePod, World.invoke, h1], by simp⟩
    | some k8sPod =>
      rcases h2 : m.collectorManager.CollectPod k8sPod.Namespace k8sPod.Name st1 with
        ⟨⟨info, err2⟩, st2⟩
      cases err2 with
      | some e =>
        exact ⟨[⟨.CollectPod k8sPod.Namespace k8sPod.Name, some e⟩],
          by simp [defaultNetNodeManager.resolvePod, World.invoke, h1, h2], by simp⟩
      | none =>
        rcases h3 : m.plugin.CreatePod info st2 with ⟨⟨ret, err3⟩, st3⟩
        cases err3 with
        | some e =>
          exact ⟨[⟨.CollectPod k8sPod.Namespace k8sPod.Name, none⟩, ⟨.CreatePod info, some e⟩],
            by simp [defaultNetNodeManager.resolvePod, World.invoke, h1, h2, h3], by simp⟩
        | none =>
          exact ⟨[⟨.CollectPod k8sPod.Namespace k8sPod.Name, none⟩, ⟨.CreatePod info, none⟩],
            by simp [defaultNetNodeManager.resolvePod, World.invoke, h1, h2, h3],
            by simp [defaultNetNodeManager.resolvePod, World.invoke, h1, h2, h3]⟩

/-- The Node case logs the collector first; it returns a nil error when every invocation it
logs returned a nil error. -/
theorem resolveNode_calls {W : Type} (m : defaultNetNodeManager W) (key id : String)
    (w : World W) :
    ∃ rest, (m.resolveNode key id w).2.2.calls =
        w.calls ++ ⟨.CollectNode id, (m.collectorManager.CollectNode id w.state).1.2⟩ :: rest ∧
      ((m.collectorManager.CollectNode id w.state).1.2 = none → (∀ i ∈ rest, i.err = none) →
        (m.resolveNode key id w).1.2 = none) := by
  rcases h1 : m.collectorManager.CollectNode id w.state with ⟨⟨info, err1⟩, st1⟩
  cases err1 with
  | some e => exact ⟨[], by simp [defaultNetNodeManager.resolveNode, World.invoke, h1], by simp⟩
  | none =>
    rcases h2 : m.plugin.CreateNode info st1 with ⟨⟨ret, err2⟩, st2⟩
    cases err2 with
    | some e =>
      exact ⟨[⟨.CreateNode info, some e⟩],
        by simp [defaultNetNodeManager.resolveNode, World.invoke, h1, h2], by simp⟩
    | none =>
      exact ⟨[⟨.CreateNode info, none⟩],
        by simp [defaultNetNodeManager.resolveNode, World.invoke, h1, h2],
        by simp [defaultNetNodeManager.resolveNode, World.invoke, h1, h2]⟩

/-- C2. If `GetNetNodeFromID` returns a non-nil error, the node it returns is nil and the
resolver, its cache included, is what it was before the call. The same request made again,
in whatever world `w'` the retry finds, therefore resolves anew: it invokes a collaborator
(first the Endpoint Locator for a Pod, the Collector for a Node, the parent otherwise, with
the requested id), and it returns a nil error when every invocation it makes returns a nil
error and, for a Pod, the locator finds a pod. -/
theorem GetNetNodeFromID_error_not_cached {W : Type}
    (m : defaultNetNodeManager W) (nodeType : NetNodeType) (id : String) (w : World W)
    (h : (m.GetNetNodeFromID nodeType id w).1.2 ≠ none) (w' : World W) :
    (m.GetNetNodeFromID nodeType id w).1.1 = none ∧
    (m.GetNetNodeFromID nodeType id w).2.1 = m ∧
    ∃ first rest,
      ((m.GetNetNodeFromID nodeType id w).2.1.GetNetNodeFromID nodeType id
        w').2.2.calls = w'.calls ++ first :: rest ∧
      first.call =
        (if nodeType = model.NetNodeTypePod then Call.GetPodFromIP id
         else if nodeType = model.NetNodeTypeNode then Call.CollectNode id
         else Call.parentGetNetNodeFromID nodeType id) ∧
      ((∀ i ∈ first :: rest, i.err = none) →
        (nodeType = model.NetNodeTypePod → (m.ipCache.GetPodFromIP id w'.state).1.1 ≠ none) →
        ((m.GetNetNodeFromID nodeType id w).2.1.GetNetNodeFromID nodeType id
          w').1.2 = none) := by
  have hmiss := GetNetNodeFromID_error_miss m nodeType id w h
  have hshape := GetNetNodeFromID_miss_shape m nodeType id w hmiss
  have hm : (m.GetNetNodeFromID nodeType id w).1.1 = none ∧
      (m.GetNetNodeFromID nodeType id w).2.1 = m := by
    rcases hshape with h1 | h1 | ⟨n, h1, _⟩
    · exact ⟨h1.1, h1.2.2⟩
    · rw [h1.1] at h; simp at h
    · rw [h1] at h; simp at h
  refine ⟨hm.1, hm.2, ?_⟩
  rw [hm.2, GetNetNodeFromID_miss m nodeType id w' hmiss]
  by_cases hp : nodeType = model.NetNodeTypePod
  · obtain ⟨rest, hc, hs⟩ := resolvePod_calls m (cacheKey nodeType id) id w'
    refine ⟨_, rest, by rw [if_pos hp]; exact hc, by rw [if_pos hp], ?_⟩
    intro hall hfound
    rw [if_pos hp]
    exact hs (hall _ (List.mem_cons_self _ _))
      (fun i hi => hall i (List.mem_cons_of_mem _ hi)) (hfound hp)
  · by_cases hn : nodeType = model.NetNodeTypeNode
    · obtain ⟨rest, hc, hs⟩ := resolveNode_calls m (cacheKey nodeType id) id w'
      refine ⟨_, rest, by rw [if_neg hp, if_pos hn]; exact hc, by rw [if_neg hp, if_pos hn], ?_⟩
      intro hall _
      rw [if_neg hp, if_pos hn]
      exact hs (hall _ (List.mem_cons_self _ _))
        (fun i hi => hall i (List.mem_cons_of_mem _ hi))
    · rw [if_neg hp, if_neg hn]
      cases hpar : m.parent with
      | none =>
        rw [GetNetNodeFromID_miss m nodeType id w hmiss, if_neg hp, if_neg hn,
          resolveDefault_generic m hpar] at h
        simp at h
      | some parent =>
        obtain ⟨hw, hr⟩ := resolveDefault_parent m parent hpar (cacheKey nodeType id)
          nodeType id w'
        refine ⟨_, [], by rw [hw], by rw [if_neg hp, if_neg hn], ?_⟩
        intro hall _
        have h0 := hall _ (List.mem_cons_self _ _)
        simp only at h0
        rw [hr, h0]

theorem GetNetNodeFromID_error_not_cached_witness :
    (sampleManager.GetNetNodeFromID model.NetNodeTypeNode "worker-1" (sampleWorld 0)).1.2 ≠ none ∧
    (sampleManager.GetNetNodeFromID model.NetNodeTypeNode "worker-1" (sampleWorld 0)).1.1 = none ∧
    (sampleManager.GetNetNodeFromID model.NetNodeTypeNode "worker-1" (sampleWorld 0)).2.1 =
      sampleManager :=
  ⟨by decide,
    (GetNetNodeFromID_error_not_cached sampleManager model.NetNodeTypeNode "worker-1"
      (sampleWorld 0) (by decide) (sampleWorld 1)).1,
    (GetNetNodeFromID_error_not_cached sampleManager model.NetNodeTypeNode "worker-1"
      (sampleWorld 0) (by decide) (sampleWorld 1)).2.1⟩

/-- C4. A resolver with a parent, asked for a node type other than Pod and Node whose key
is not in its cache, invokes the parent exactly once, with the same node type and id, and
invokes no other collaborator; it returns the parent's node with a nil error when the
parent returns a nil error, and a nil node with the parent's own error value otherwise. -/
theorem GetNetNodeFromID_delegates {W : Type} (m : defaultNetNodeManager W)
    (parent : NetNodeManager W) (hparent : m.parent = some parent)
    (nodeType : NetNodeType) (id : String) (w : World W)
    (hPod : nodeType ≠ model.NetNodeTypePod) (hNode : nodeType ≠ model.NetNodeTypeNode)
    (hmiss : m.cache.Load (cacheKey nodeType id) = none) :
    (m.GetNetNodeFromID nodeType id w).2.2.calls =
      w.calls ++ [⟨.parentGetNetNodeFromID nodeType id,
        (parent.GetNetNodeFromID nodeType id w.state).1.2⟩] ∧
    (m.GetNetNodeFromID nodeType id w).2.2.state =
      (parent.GetNetNodeFromID nodeType id w.state).2 ∧
    ((parent.GetNetNodeFromID nodeType id w.state).1.2 = none →
      (m.GetNetNodeFromID nodeType id w).1 =
        ((parent.GetNetNodeFromID nodeType id w.state).1.1, none)) ∧
    (∀ err, (parent.GetNetNodeFromID nodeType id w.state).1.2 = some err →
      (m.GetNetNodeFromID nodeType id w).1 = (none, some err)) := by
  rw [GetNetNodeFromID_miss m nodeType id w hmiss, if_neg hPod, if_neg hNode]
  obtain ⟨hw, hr⟩ := resolveDefault_parent m parent hparent (cacheKey nodeType id)
    nodeType id w
  refine ⟨by rw [hw], by rw [hw], ?_, ?_⟩
  · intro h0; rw [hr, h0]
  · intro err h0; rw [hr, h0]

theorem GetNetNodeFromID_delegates_witness :
    (sampleChild.GetNetNodeFromID model.NetNodeTypeGeneric "unreachable" (sampleWorld 3)).1 =
      (none, some (.collaborator 9 "parent failed")) :=
  (GetNetNodeFromID_delegates sampleChild sampleParent rfl model.NetNodeTypeGeneric "unreachable"
    (sampleWorld 3) (by decide) (by decide) (by decide)).2.2.2 _ (by decide)

/-- C5. When the key of `(Pod, id)` is not cached and the Endpoint Locator returns no pod
and no error for `id`, `GetNetNodeFromID` returns a nil node and the error
`k8s pod not found from ip <id>`, invokes the locator and nothing else, and leaves the
resolver, its cache included, unchanged; the same request made again, in whatever world
it finds, invokes the locator with `id` again. -/
theorem GetNetNodeFromID_pod_not_found {W : Type}
    (m : defaultNetNodeManager W) (id : String) (w : World W)
    (hmiss : m.cache.Load (cacheKey model.NetNodeTypePod id) = none)
    (hloc : (m.ipCache.GetPodFromIP id w.state).1 = (none, none)) :
    (m.GetNetNodeFromID model.NetNodeTypePod id w).1 =
      (none, some (.Errorf ("k8s pod not found from ip " ++ id))) ∧
    (m.GetNetNodeFromID model.NetNodeTypePod id w).2.2.calls =
      w.calls ++ [⟨.GetPodFromIP id, none⟩] ∧
    (m.GetNetNodeFromID model.NetNodeTypePod id w).2.1 = m ∧
    ∀ w' : World W, ∃ rest,
      ((m.GetNetNodeFromID model.NetNodeTypePod id w).2.1.GetNetNodeFromID
        model.NetNodeTypePod id w').2.2.calls =
      w'.calls ++ ⟨.GetPodFromIP id, (m.ipCache.GetPodFromIP id w'.state).1.2⟩ :: rest := by
  have hm : (m.GetNetNodeFromID model.NetNodeTypePod id w).2.1 = m := by
    rw [GetNetNodeFromID_miss m _ id w hmiss, if_pos rfl]
    rcases h1 : m.ipCache.GetPodFromIP id w.state with ⟨⟨pod, err1⟩, st1⟩
    rw [h1] at hloc
    simp at hloc
    simp [defaultNetNodeManager.resolvePod, World.invoke, h1, hloc.1, hloc.2]
  refine ⟨?_, ?_, hm, ?_⟩
  · rw [GetNetNodeFromID_miss m _ id w hmiss, if_pos rfl]
    rcases h1 : m.ipCache.GetPodFromIP id w.state with ⟨⟨pod, err1⟩, st1⟩
    rw [h1] at hloc
    simp at hloc
    simp [defaultNetNodeManager.resolvePod, World.invoke, h1, hloc.1, hloc.2]
  · rw [GetNetNodeFromID_miss m _ id w hmiss, if_pos rfl]
    rcases h1 : m.ipCache.GetPodFromIP id w.state with ⟨⟨pod, err1⟩, st1⟩
    rw [h1] at hloc
    simp at hloc
    simp [defaultNetNodeManager.resolvePod, World.invoke, h1, hloc.1, hloc.2]
  · intro w'
    rw [hm, GetNetNodeFromID_miss m _ id w' hmiss, if_pos rfl]
    obtain ⟨rest, hc, _⟩ := resolvePod_calls m (cacheKey model.NetNodeTypePod id) id w'
    exact ⟨rest, hc⟩

theorem GetNetNodeFromID_pod_not_found_witness :
    (sampleManager.GetNetNodeFromID model.NetNodeTypePod "10.244.9.9" (sampleWorld 0)).1 =
      (none, some (.Errorf "k8s pod not found from ip 10.244.9.9")) :=
  (GetNetNodeFromID_pod_not_found sampleManager "10.244.9.9" (sampleWorld 0)
    (by decide) (by decide)).1

/-! ## Cache keys -/

theorem cacheKey_data (typ : NetNodeType) (id : String) :
    (cacheKey typ id).data = typ.format.data ++ '-' :: '-' :: '-' :: id.data := by
  simp [cacheKey, String.data_append]

theorem hyphen_split (l₁ l₂ r₁ r₂ : List Char) (h₁ : '-' ∉ l₁) (h₂ : '-' ∉ l₂)
    (h : l₁ ++ '-' :: r₁ = l₂ ++ '-' :: r₂) : l₁ = l₂ ∧ r₁ = r₂ := by
  induction l₁ generalizing l₂ with
  | nil =>
    cases l₂ with
    | nil => simpa using h
    | cons b l₂ =>
      simp only [List.nil_append, List.cons_append, List.cons.injEq] at h
      exact absurd (h.1 ▸ List.mem_cons_self _ _) h₂
  | cons a l₁ ih =>
    cases l₂ with
    | nil =>
      simp only [List.nil_append, List.cons_append, List.cons.injEq] at h
      exact absurd (h.1 ▸ List.mem_cons_self _ _) h₁
    | cons b l₂ =>
      simp only [List.cons_append, List.cons.injEq] at h
      have := ih l₂ (fun hm => h₁ (List.mem_cons_of_mem _ hm))
        (fun hm => h₂ (List.mem_cons_of_mem _ hm)) h.2
      exact ⟨by rw [h.1, this.1], this.2⟩

/-- The text of a node type holds no hyphen. -/
theorem format_hyphen_free (t : NetNodeType) : '-' ∉ t.format.data := by
  cases t <;> decide

/-- Different node types have different texts. -/
theorem format_injective (t₁ t₂ : NetNodeType) (h : t₁.format.data = t₂.format.data) :
    t₁ = t₂ := by
  cases t₁ <;> cases t₂ <;> first | rfl | exact absurd h (by decide)

/-- The keys of two requests coincide only if the requests do. -/
theorem cacheKey_injective (t₁ t₂ : NetNodeType) (id₁ id₂ : String)
    (h : cacheKey t₁ id₁ = cacheKey t₂ id₂) : t₁ = t₂ ∧ id₁ = id₂ := by
  have hd := congrArg String.data h
  rw [cacheKey_data, cacheKey_data] at hd
  obtain ⟨ht, hr⟩ := hyphen_split _ _ _ _ (format_hyphen_free t₁) (format_hyphen_free t₂) hd
  simp only [List.cons.injEq, true_and] at hr
  exact ⟨format_injective t₁ t₂ ht, String.ext hr⟩

/-- A call of `GetNetNodeFromID` leaves the entries under all keys but its own as they are. -/
theorem GetNetNodeFromID_other_key {W : Type} (m : defaultNetNodeManager W)
    (nodeType : NetNodeType) (id : String) (w : World W) (key : String)
    (hkey : cacheKey nodeType id ≠ key) :
    (m.GetNetNodeFromID nodeType id w).2.1.cache.Load key = m.cache.Load key := by
  cases hl : m.cache.Load (cacheKey nodeType id) with
  | some n => rw [GetNetNodeFromID_hit m nodeType id w n hl]
  | none =>
    rcases GetNetNodeFromID_miss_shape m nodeType id w hl with h1 | h1 | ⟨n, _, h1⟩
    · rw [h1.2.2]
    · rw [h1.2]
    · rw [h1]; simp [SyncMap.Load_Store, hkey]

/-- C6. The key computed by `cacheKey` identifies its request: if
`cacheKey t₁ id₁ = cacheKey t₂ id₂` then `t₁ = t₂` and `id₁ = id₂`. Hence two different
requests do not share a cache entry: on every resolver, a call of `GetNetNodeFromID` for one
request leaves the entry that a different request reads exactly as it was. In particular,
for every id the keys of `(Pod, id)` and `(Node, id)` differ, and resolving either of the
two leaves the entry of the other untouched. -/
theorem cacheKey_unique {W : Type} (t₁ t₂ : NetNodeType) (id₁ id₂ : String)
    (m : defaultNetNodeManager W) (w : World W) :
    (cacheKey t₁ id₁ = cacheKey t₂ id₂ → t₁ = t₂ ∧ id₁ = id₂) ∧
    ((t₁, id₁) ≠ (t₂, id₂) →
      (m.GetNetNodeFromID t₁ id₁ w).2.1.cache.Load (cacheKey t₂ id₂) =
        m.cache.Load (cacheKey t₂ id₂)) ∧
    cacheKey model.NetNodeTypePod id₁ ≠ cacheKey model.NetNodeTypeNode id₁ ∧
    (m.GetNetNodeFromID model.NetNodeTypePod id₁ w).2.1.cache.Load
        (cacheKey model.NetNodeTypeNode id₁) =
      m.cache.Load (cacheKey model.NetNodeTypeNode id₁) ∧
    (m.GetNetNodeFromID model.NetNodeTypeNode id₁ w).2.1.cache.Load
        (cacheKey model.NetNodeTypePod id₁) =
      m.cache.Load (cacheKey model.NetNodeTypePod id₁) := by
  have hpn : cacheKey model.NetNodeTypePod id₁ ≠ cacheKey model.NetNodeTypeNode id₁ := by
    intro h
    exact absurd (cacheKey_injective _ _ _ _ h).1 (by decide)
  refine ⟨cacheKey_injective t₁ t₂ id₁ id₂, ?_, hpn, ?_, ?_⟩
  · intro hne
    apply GetNetNodeFromID_other_key
    intro h
    obtain ⟨ht, hid⟩ := cacheKey_injective _ _ _ _ h
    exact hne (by rw [ht, hid])
  · exact GetNetNodeFromID_other_key m _ id₁ w _ hpn
  · exact GetNetNodeFromID_other_key m _ id₁ w _ (Ne.symm hpn)

theorem cacheKey_unique_witness :
    (sampleManager.GetNetNodeFromID model.NetNodeTypePod "10.244.1.5" (sampleWorld 1)).1 =
      (some (.external 100), none) ∧
    (sampleManager.GetNetNodeFromID model.NetNodeTypePod "10.244.1.5"
        (sampleWorld 1)).2.1.cache.Load (cacheKey model.NetNodeTypeNode "10.244.1.5") =
      sampleManager.cache.Load (cacheKey model.NetNodeTypeNode "10.244.1.5") ∧
    sampleManager.cache.Load (cacheKey model.NetNodeTypeNode "10.244.1.5") = none :=
  ⟨by decide,
    (cacheKey_unique model.NetNodeTypePod model.NetNodeTypeNode "10.244.1.5" "10.244.1.5"
      sampleManager (sampleWorld 1)).2.1 (by decide),
    by decide⟩

/-! ## The generic fallback -/

theorem GetNetNodeFromID_parent {W : Type} (m : defaultNetNodeManager W)
    (nodeType : NetNodeType) (id : String) (w : World W) :
    (m.GetNetNodeFromID nodeType id w).2.1.parent = m.parent := by
  cases hl : m.cache.Load (cacheKey nodeType id) with
  | some n => rw [GetNetNodeFromID_hit m nodeType id w n hl]
  | none =>
    rcases GetNetNodeFromID_miss_shape m nodeType id w hl with h1 | h1 | ⟨n, _, h1⟩
    · rw [h1.2.2]
    · rw [h1.2]
    · rw [h1]

/-- A call on a resolver without a parent keeps the invariant `GenericEntries`. -/
theorem GetNetNodeFromID_GenericEntries {W : Type} (m : defaultNetNodeManager W)
    (hparent : m.parent = none) (nodeType : NetNodeType) (id : String) (w : World W)
    (hinv : GenericEntries m) :
    GenericEntries (m.GetNetNodeFromID nodeType id w).2.1 := by
  cases hl : m.cache.Load (cacheKey nodeType id) with
  | some n => rw [GetNetNodeFromID_hit m nodeType id w n hl]; exact hinv
  | none =>
    intro t id' node hPod hNode hload
    by_cases hkey : cacheKey nodeType id = cacheKey t id'
    · obtain ⟨htt, hid⟩ := cacheKey_injective _ _ _ _ hkey
      subst htt; subst hid
      rw [GetNetNodeFromID_miss m nodeType id w hl, if_neg hPod, if_neg hNode,
        resolveDefault_generic m hparent] at hload
      simp only [SyncMap.Load_Store, if_true, Option.some.injEq] at hload
      exact ⟨w.heap, hload.symm⟩
    · rw [GetNetNodeFromID_other_key m nodeType id w _ hkey] at hload
      exact hinv t id' node hPod hNode hload

theorem run_GenericEntries {W : Type} (steps : List (Step W))
    (s : defaultNetNodeManager W × World W) (hparent : s.1.parent = none)
    (hinv : GenericEntries s.1) :
    (run steps s).1.parent = none ∧ GenericEntries (run steps s).1 := by
  induction steps generalizing s with
  | nil => exact ⟨hparent, hinv⟩
  | cons step rest ih =>
    simp only [run, List.foldl_cons]
    obtain ⟨m, w⟩ := s
    apply ih
    · cases step with
      | call nodeType id => exact (GetNetNodeFromID_parent m nodeType id w).trans hparent
      | change f => exact hparent
    · cases step with
      | call nodeType id => exact GetNetNodeFromID_GenericEntries m hparent nodeType id w hinv
      | change f => exact hinv

/-- C3. Take a resolver constructed without a parent, in any state reached by a finite
sequence of earlier calls of `GetNetNodeFromID` (and of changes of the collaborators'
state). For every node type other than Pod and Node and every id, `GetNetNodeFromID`
returns a nil error and a generic node whose `Type` is Generic, whose `ID` is the requested
id and whose `Actions` map is empty. -/
theorem GetNetNodeFromID_generic_fallback {W : Type} (ipCache : IPCache W)
    (networkPlugin : Plugin W) (collectorManager : Manager W) (w₀ : World W)
    (steps : List (Step W)) (nodeType : NetNodeType) (id : String)
    (hPod : nodeType ≠ model.NetNodeTypePod) (hNode : nodeType ≠ model.NetNodeTypeNode) :
    ∃ ptr,
      ((run steps
          (NewNetNodeManager ipCache networkPlugin collectorManager, w₀)).1.GetNetNodeFromID
        nodeType id
        (run steps (NewNetNodeManager ipCache networkPlugin collectorManager, w₀)).2).1 =
      (some (.GenericNetNode ptr
        { «Type» := model.NetNodeTypeGeneric, ID := id, Actions := [] }), none) := by
  obtain ⟨hpar, hinv⟩ := run_GenericEntries steps
    (NewNetNodeManager ipCache networkPlugin collectorManager, w₀) rfl
    (by intro t id node _ _ hload; simp [NewNetNodeManager, SyncMap.Load] at hload)
  generalize run steps (NewNetNodeManager ipCache networkPlugin collectorManager, w₀) = s
    at hpar hinv
  cases hl : s.1.cache.Load (cacheKey nodeType id) with
  | some n =>
    obtain ⟨ptr, hn⟩ := hinv nodeType id n hPod hNode hl
    exact ⟨ptr, by rw [GetNetNodeFromID_hit s.1 nodeType id s.2 n hl, hn]⟩
  | none =>
    exact ⟨s.2.heap, by
      rw [GetNetNodeFromID_miss s.1 nodeType id s.2 hl, if_neg hPod, if_neg hNode,
        resolveDefault_generic s.1 hpar]⟩

theorem GetNetNodeFromID_generic_fallback_witness :
    ∃ ptr,
      ((run sampleSteps (sampleManager, sampleWorld 0)).1.GetNetNodeFromID
        model.NetNodeTypeGeneric "8.8.8.8"
        (run sampleSteps (sampleManager, sampleWorld 0)).2).1 =
      (some (.GenericNetNode ptr
        { «Type» := model.NetNodeTypeGeneric, ID := "8.8.8.8", Actions := [] }), none) :=
  GetNetNodeFromID_generic_fallback sampleIPCache samplePlugin sampleCollector
    (sampleWorld 0) sampleSteps model.NetNodeTypeGeneric "8.8.8.8" (by decide) (by decide)

/-! ## The context of an error -/

/-- C9, as amended. When the resolution of a Pod or Node key fails, the last invocation
that the call logs is the collaborator invocation that ended it, and the error returned is
determined by it. If that invocation returned an error, the error returned carries this
cause: it is the locator's error itself, or a new error whose message is the stage and node
type (`error run collector for pod: `, `error create pod: `,
`error run collector for node: `, `error create node: `) followed by the message of the
collaborator's error. Only when the last invocation is the locator returning no pod and no
error is the error returned `k8s pod not found from ip <id>`, which names the requested
id. -/
theorem GetNetNodeFromID_error_context {W : Type} (m : defaultNetNodeManager W)
    (nodeType : NetNodeType) (id : String) (w : World W) (e : GoError)
    (htype : nodeType = model.NetNodeTypePod ∨ nodeType = model.NetNodeTypeNode)
    (herr : (m.GetNetNodeFromID nodeType id w).1.2 = some e) :
    ∃ earlier last,
      (m.GetNetNodeFromID nodeType id w).2.2.calls = w.calls ++ earlier ++ [last] ∧
      match last.call, last.err with
      | .GetPodFromIP ip, some cause =>
        nodeType = model.NetNodeTypePod ∧ ip = id ∧ e = cause
      | .GetPodFromIP ip, none =>
        nodeType = model.NetNodeTypePod ∧ ip = id ∧
        (m.ipCache.GetPodFromIP id w.state).1 = (none, none) ∧
        e = .Errorf ("k8s pod not found from ip " ++ id)
      | .CollectPod _ _, some cause =>
        nodeType = model.NetNodeTypePod ∧
        e = .Errorf ("error run collector for pod: " ++ cause.Error)
      | .CreatePod _, some cause =>
        nodeType = model.NetNodeTypePod ∧ e = .Errorf ("error create pod: " ++ cause.Error)
      | .CollectNode name, some cause =>
        nodeType = model.NetNodeTypeNode ∧ name = id ∧
        e = .Errorf ("error run collector for node: " ++ cause.Error)
      | .CreateNode _, some cause =>
        nodeType = model.NetNodeTypeNode ∧ e = .Errorf ("error create node: " ++ cause.Error)
      | _, _ => False := by
  have hmiss := GetNetNodeFromID_error_miss m nodeType id w (by rw [herr]; simp)
  rw [GetNetNodeFromID_miss m nodeType id w hmiss] at herr ⊢
  by_cases hp : nodeType = model.NetNodeTypePod
  · rw [if_pos hp] at herr ⊢
    rcases h1 : m.ipCache.GetPodFromIP id w.state with ⟨⟨pod, err1⟩, st1⟩
    cases err1 with
    | some c =>
      simp [defaultNetNodeManager.resolvePod, World.invoke, h1] at herr
      exact ⟨[], ⟨.GetPodFromIP id, some c⟩,
        by simp [defaultNetNodeManager.resolvePod, World.invoke, h1], hp, rfl, herr.symm⟩
    | none =>
      cases pod with
      | none =>
        simp [defaultNetNodeManager.resolvePod, World.invoke, h1] at herr
        exact ⟨[], ⟨.GetPodFromIP id, none⟩,
          by simp [defaultNetNodeManager.resolvePod, World.invoke, h1], hp, rfl, rfl,
          herr.symm⟩
      | some k8sPod =>
        rcases h2 : m.collectorManager.CollectPod k8sPod.Namespace k8sPod.Name st1 with
          ⟨⟨info, err2⟩, st2⟩
        cases err2 with
        | some c =>
          simp [defaultNetNodeManager.resolvePod, World.invoke, h1, h2] at herr
          exact ⟨[⟨.GetPodFromIP id, none⟩], ⟨.CollectPod k8sPod.Namespace k8sPod.Name, some c⟩,
            by simp [defaultNetNodeManager.resolvePod, World.invoke, h1, h2], hp, herr.symm⟩
        | none =>
          rcases h3 : m.plugin.CreatePod info st2 with ⟨⟨ret, err3⟩, st3⟩
          cases err3 with
          | some c =>
            simp [defaultNetNodeManager.resolvePod, World.invoke, h1, h2, h3] at herr
            exact ⟨[⟨.GetPodFromIP id, none⟩, ⟨.CollectPod k8sPod.Namespace k8sPod.Name, none⟩],
              ⟨.CreatePod info, some c⟩,
              by simp [defaultNetNodeManager.resolvePod, World.invoke, h1, h2, h3], hp,
              herr.symm⟩
          | none => simp [defaultNetNodeManager.resolvePod, World.invoke, h1, h2, h3] at herr
  · rcases htype with hp' | hn
    · exact absurd hp' hp
    · rw [if_neg hp, if_pos hn] at herr ⊢
      rcases h1 : m.collectorManager.CollectNode id w.state with ⟨⟨info, err1⟩, st1⟩
      cases err1 with
      | some c =>
        simp [defaultNetNodeManager.resolveNode, World.invoke, h1] at herr
        exact ⟨[], ⟨.CollectNode id, some c⟩,
          by simp [defaultNetNodeManager.resolveNode, World.invoke, h1], hn, rfl, herr.symm⟩
      | none =>
        rcases h2 : m.plugin.CreateNode info st1 with ⟨⟨ret, err2⟩, st2⟩
        cases err2 with
        | some c =>
          simp [defaultNetNodeManager.resolveNode, World.invoke, h1, h2] at herr
          exact ⟨[⟨.CollectNode id, none⟩], ⟨.CreateNode info, some c⟩,
            by simp [defaultNetNodeManager.resolveNode, World.invoke, h1, h2], hn, herr.symm⟩
        | none => simp [defaultNetNodeManager.resolveNode, World.invoke, h1, h2] at herr

theorem GetNetNodeFromID_error_context_witness :
    (sampleManager.GetNetNodeFromID model.NetNodeTypeNode "worker-1" (sampleWorld 0)).1.2 =
      some (.Errorf "error run collector for node: boom") ∧
    ∃ earlier last,
      (sampleManager.GetNetNodeFromID model.NetNodeTypeNode "worker-1"
        (sampleWorld 0)).2.2.calls = (sampleWorld 0).calls ++ earlier ++ [last] ∧
      match last.call, last.err with
      | .GetPodFromIP ip, some cause =>
        model.NetNodeTypeNode = model.NetNodeTypePod ∧ ip = "worker-1" ∧
        GoError.Errorf "error run collector for node: boom" = cause
      | .GetPodFromIP ip, none =>
        model.NetNodeTypeNode = model.NetNodeTypePod ∧ ip = "worker-1" ∧
        (sampleManager.ipCache.GetPodFromIP "worker-1" (sampleWorld 0).state).1 = (none, none) ∧
        GoError.Errorf "error run collector for node: boom" =
          .Errorf ("k8s pod not found from ip " ++ "worker-1")
      | .CollectPod _ _, some cause =>
        model.NetNodeTypeNode = model.NetNodeTypePod ∧
        GoError.Errorf "error run collector for node: boom" =
          .Errorf ("error run collector for pod: " ++ cause.Error)
      | .CreatePod _, some cause =>
        model.NetNodeTypeNode = model.NetNodeTypePod ∧
        GoError.Errorf "error run collector for node: boom" =
          .Errorf ("error create pod: " ++ cause.Error)
      | .CollectNode name, some cause =>
        model.NetNodeTypeNode = model.NetNodeTypeNode ∧ name = "worker-1" ∧
        GoError.Errorf "error run collector for node: boom" =
          .Errorf ("error run collector for node: " ++ cause.Error)
      | .CreateNode _, some cause =>
        model.NetNodeTypeNode = model.NetNodeTypeNode ∧
        GoError.Errorf "error run collector for node: boom" =
          .Errorf ("error create node: " ++ cause.Error)
      | _, _ => False :=
  ⟨by decide,
    GetNetNodeFromID_error_context sampleManager model.NetNodeTypeNode "worker-1" (sampleWorld 0)
      (.Errorf "error run collector for node: boom") (Or.inr (by decide)) (by decide)⟩

/-- C9, as stated, fails. The collector fails with `boom` for the node `worker-1`: the
error returned has the message `error run collector for node: boom`, in which the requested
id does not occur. -/
theorem GetNetNodeFromID_error_without_id :
    ∃ e,
      (sampleManager.GetNetNodeFromID model.NetNodeTypeNode "worker-1" (sampleWorld 0)).1.2 =
        some e ∧
      e.Error = "error run collector for node: boom" ∧
      ¬ ("worker-1".data <:+: e.Error.data) :=
  ⟨.Errorf "error run collector for node: boom", by decide, by decide, by decide⟩

/-! ## Collections over the lifetime of a resolver -/

/-- C1, as stated, fails in its closing clause. The collector fails for the node `worker-1`
at time `0` and succeeds afterwards: the first request returns an error, the second returns
a node, the third is answered from the cache, and over these three requests the Collector
has been invoked twice for the key that succeeded once. -/
theorem GetNetNodeFromID_collects_again :
    (sampleManager.GetNetNodeFromID model.NetNodeTypeNode "worker-1" (sampleWorld 0)).1.2 ≠
      none ∧
    ((sampleManager.GetNetNodeFromID model.NetNodeTypeNode "worker-1"
        (sampleWorld 0)).2.1.GetNetNodeFromID model.NetNodeTypeNode "worker-1"
      (sampleManager.GetNetNodeFromID model.NetNodeTypeNode "worker-1" (sampleWorld 0)).2.2).1 =
      (some (.external 200), none) ∧
    (run sampleRetries (sampleManager, sampleWorld 0)).2.calls.map Invocation.call =
      [.CollectNode "worker-1", .CollectNode "worker-1", .CreateNode { ref := 2 }] ∧
    (run sampleRetries (sampleManager, sampleWorld 0)).2.calls.countP
      (fun i => i.call.isCollect) = 2 := by
  decide

end nodemanager

namespace tracetcpreset

/-! ## The event record -/

theorem putUint_length (n v : Nat) : (putUint n v).length = n := by
  induction n generalizing v with
  | zero => rfl
  | succ n ih => simp [putUint, ih]

theorem getUint_putUint (n v : Nat) (h : v < 256 ^ n) : getUint (putUint n v) = v := by
  induction n generalizing v with
  | zero => simp [putUint, getUint]; omega
  | succ n ih =>
    have hv : v / 256 < 256 ^ n := by
      rw [Nat.div_lt_iff_lt_mul (by norm_num)]
      rw [pow_succ] at h
      exact h
    simp only [putUint, getUint, ih (v / 256) hv]
    omega

theorem readBytes_append (n : Nat) (field rest : List Nat) (h : field.length = n) :
    readBytes n (field ++ rest) = some (field, rest) := by
  subst h
  simp [readBytes]

theorem readUint_putUint (n v : Nat) (rest : List Nat) (h : v < 256 ^ n) :
    readUint n (putUint n v ++ rest) = some (v, rest) := by
  simp [readUint, readBytes_append n _ rest (putUint_length n v), getUint_putUint n v h]

theorem toUint64_lt (s : Int) : toUint64 s < 256 ^ 8 := by
  unfold toUint64
  norm_num
  omega

theorem ofUint64_toUint64 (s : Int) (h₁ : -(2 ^ 63) ≤ s) (h₂ : s < 2 ^ 63) :
    ofUint64 (toUint64 s) = s := by
  unfold ofUint64 toUint64
  norm_num at h₁ h₂ ⊢
  split <;> omega

theorem readTuple_encode (t : Tuple) (rest : List Nat) (h : t.Valid) :
    readTuple (t.Saddr.V6addr ++ (t.Daddr.V6addr ++ (putUint 2 t.Sport ++ (putUint 2 t.Dport ++
      (putUint 2 t.L3Proto ++ (putUint 1 t.L4Proto ++ (putUint 1 t.Pad ++ rest))))))) =
      some (t, rest) := by
  obtain ⟨hs, hd, h1, h2, h3, h4, h5⟩ := h
  simp [readTuple, readBytes_append 16 _ _ hs.1, readBytes_append 16 _ _ hd.1,
    readUint_putUint 2 _ _ h1, readUint_putUint 2 _ _ h2, readUint_putUint 2 _ _ h3,
    readUint_putUint 1 _ _ h4, readUint_putUint 1 _ _ h5]

theorem readSkbMeta_encode (s : SkbMeta) (rest : List Nat) (h : s.Valid) :
    readSkbMeta (putUint 4 s.Netns ++ (putUint 4 s.Mark ++ (putUint 4 s.Ifindex ++
      (putUint 4 s.Len ++ (putUint 4 s.Mtu ++ (putUint 4 s.SkState ++
      (putUint 2 s.Protocol ++ (putUint 2 s.Pad ++ rest)))))))) = some (s, rest) := by
  obtain ⟨h1, h2, h3, h4, h5, h6, h7, h8⟩ := h
  simp [readSkbMeta, readUint_putUint 4 _ _ h1, readUint_putUint 4 _ _ h2,
    readUint_putUint 4 _ _ h3, readUint_putUint 4 _ _ h4, readUint_putUint 4 _ _ h5,
    readUint_putUint 4 _ _ h6, readUint_putUint 2 _ _ h7, readUint_putUint 2 _ _ h8]

/-- C8. For every event whose fields are values of their Go types and every seven reserved
bytes, the record written in the layout of the spec has 88 bytes, and reading it back in the
same layout yields the event, field for field, whatever the reserved bytes are. -/
theorem decode_encode (e : bpfInspTcpresetEventT) (reserved : List Nat) (he : e.Valid)
    (hr : reserved.length = 7) :
    (encode e reserved).length = 88 ∧ decode (encode e reserved) = some e := by
  obtain ⟨h1, h2, ht, hs, h3, h4⟩ := he
  refine ⟨?_, ?_⟩
  · simp [encode, putUint_length, ht.1.1, ht.2.1.1, hr]
  · simp only [encode, List.append_assoc, decode]
    rw [readUint_putUint 4 _ _ h1]
    simp only [Option.some_bind]
    rw [readUint_putUint 1 _ _ h2]
    simp only [Option.some_bind]
    rw [readTuple_encode _ _ ht]
    simp only [Option.some_bind]
    rw [readSkbMeta_encode _ _ hs]
    simp only [Option.some_bind]
    rw [readBytes_append 7 _ _ hr]
    simp only [Option.some_bind]
    have h8 := readUint_putUint 8 (toUint64 e.StackId) [] (toUint64_lt e.StackId)
    rw [List.append_nil] at h8
    rw [h8]
    simp only [Option.some_bind, ofUint64_toUint64 e.StackId h3 h4]

theorem decode_encode_witness :
    sampleEvent.Valid ∧ [1, 2, 3, 4, 5, 6, 7].length = 7 ∧
    decode (encode sampleEvent [1, 2, 3, 4, 5, 6, 7]) = some sampleEvent :=
  ⟨by decide, by decide, (decode_encode sampleEvent [1, 2, 3, 4, 5, 6, 7] (by decide) (by decide)).2⟩

/-! ## Teardown -/

/-- Closing a list of kernel resources: the result is the first failure, and `Close` has
been invoked on the resources up to and including the first failing one. -/
theorem BpfClose_handles (hs : List Handle) (closed : List Nat) :
    _BpfClose (hs.map Handle.Close) closed =
      ((hs.map Handle.closeErr).findSome? id,
        closed ++ (upToFirstFailure hs).map Handle.fd) := by
  induction hs generalizing closed with
  | nil => simp [_BpfClose, upToFirstFailure]
  | cons h rest ih =>
    cases hc : h.closeErr with
    | some err => simp [_BpfClose, Handle.Close, upToFirstFailure, hc]
    | none => simp [_BpfClose, Handle.Close, upToFirstFailure, hc, ih]

theorem bpfObjects_Close_eq (o : bpfObjects) (closed : List Nat) :
    o.Close closed = _BpfClose (o.handles.map Handle.Close) closed := by
  unfold bpfObjects.Close bpfPrograms.Close bpfMaps.Close
  simp only [bpfObjects.handles, List.map]
  cases h1 : o.bpfPrograms.InspRstrx.closeErr <;>
    cases h2 : o.bpfPrograms.TraceSendactive.closeErr <;>
    cases h3 : o.bpfPrograms.TraceSendreset.closeErr <;>
    cases h4 : o.bpfMaps.InspTcpresetEvents.closeErr <;>
    cases h5 : o.bpfMaps.InspTcpresetStack.closeErr <;>
    simp [_BpfClose, Handle.Close, h1, h2, h3, h4, h5]

/-- The first failure of a list of results: `findSome?` returns nil exactly when every
result is nil, and otherwise the first non-nil result. -/
theorem findSome_first (errs : List (Option GoError)) :
    (errs.findSome? id = none ↔ ∀ e ∈ errs, e = none) ∧
    (∀ err, errs.findSome? id = some err →
      ∃ pre post, errs = pre ++ some err :: post ∧ ∀ e ∈ pre, e = none) := by
  induction errs with
  | nil => simp
  | cons e rest ih =>
    cases e with
    | some a =>
      refine ⟨by simp, ?_⟩
      intro err h
      simp at h
      subst h
      exact ⟨[], rest, rfl, by simp⟩
    | none =>
      refine ⟨by simp, ?_⟩
      intro err h
      simp at h
      obtain ⟨pre, post, hp, hn⟩ := ih.2 err h
      refine ⟨none :: pre, post, by simp [hp], ?_⟩
      intro e he
      rcases List.mem_cons.1 he with rfl | he
      · rfl
      · exact hn e he

theorem BpfClose_result (closers : List Closer) (errs : List (Option GoError))
    (h : List.Forall₂ (fun c e => ∀ closed, (c closed).1 = e) closers errs)
    (closed : List Nat) : (_BpfClose closers closed).1 = errs.findSome? id := by
  induction h generalizing closed with
  | nil => simp [_BpfClose]
  | @cons c e cs es hce _ ih =>
    have hc := hce closed
    rcases hcc : c closed with ⟨err, closed'⟩
    rw [hcc] at hc
    simp only at hc
    subst hc
    cases err with
    | some a => simp [_BpfClose, hcc]
    | none => simpa [_BpfClose, hcc] using ih closed'

/-- C10. For every list of closers, each with a result of its `Close`, `_BpfClose` returns
nil if and only if every closer's `Close` returns nil, and otherwise it returns the error
of the first failing closer in argument order. Hence `bpfObjects.Close` returns nil if and
only if all five closes return nil, and otherwise the first failure in the order
`InspRstrx`, `TraceSendactive`, `TraceSendreset`, `InspTcpresetEvents`,
`InspTcpresetStack`. -/
theorem BpfClose_first_error (closers : List Closer) (errs : List (Option GoError))
    (h : List.Forall₂ (fun c e => ∀ closed, (c closed).1 = e) closers errs)
    (closed : List Nat) (o : bpfObjects) :
    (((_BpfClose closers closed).1 = none ↔ ∀ e ∈ errs, e = none) ∧
      (∀ err, (_BpfClose closers closed).1 = some err →
        ∃ pre post, errs = pre ++ some err :: post ∧ ∀ e ∈ pre, e = none)) ∧
    (((o.Close closed).1 = none ↔ ∀ e ∈ o.handles.map Handle.closeErr, e = none) ∧
      (∀ err, (o.Close closed).1 = some err →
        ∃ pre post,
          [o.bpfPrograms.InspRstrx.closeErr, o.bpfPrograms.TraceSendactive.closeErr,
            o.bpfPrograms.TraceSendreset.closeErr, o.bpfMaps.InspTcpresetEvents.closeErr,
            o.bpfMaps.InspTcpresetStack.closeErr] = pre ++ some err :: post ∧
          ∀ e ∈ pre, e = none)) := by
  refine ⟨?_, ?_⟩
  · rw [BpfClose_result closers errs h closed]
    exact findSome_first errs
  · rw [bpfObjects_Close_eq, BpfClose_handles]
    exact findSome_first (o.handles.map Handle.closeErr)

theorem BpfClose_first_error_witness :
    List.Forall₂ (fun (c : Closer) e => ∀ closed, (c closed).1 = e)
      [sampleObjects.bpfMaps.InspTcpresetEvents.Close, sampleObjects.bpfPrograms.InspRstrx.Close,
        sampleObjects.bpfMaps.InspTcpresetStack.Close]
      [none, some (.collaborator 1 "bad file descriptor"), none] ∧
    ((_BpfClose [sampleObjects.bpfMaps.InspTcpresetEvents.Close,
        sampleObjects.bpfPrograms.InspRstrx.Close,
        sampleObjects.bpfMaps.InspTcpresetStack.Close] []).1 = none ↔
      ∀ e ∈ [none, some (GoError.collaborator 1 "bad file descriptor"), none], e = none) :=
  ⟨List.Forall₂.cons (fun _ => rfl)
      (List.Forall₂.cons (fun _ => rfl) (List.Forall₂.cons (fun _ => rfl) List.Forall₂.nil)),
    (BpfClose_first_error
      [sampleObjects.bpfMaps.InspTcpresetEvents.Close, sampleObjects.bpfPrograms.InspRstrx.Close,
        sampleObjects.bpfMaps.InspTcpresetStack.Close]
      [none, some (.collaborator 1 "bad file descriptor"), none]
      (List.Forall₂.cons (fun _ => rfl)
        (List.Forall₂.cons (fun _ => rfl) (List.Forall₂.cons (fun _ => rfl) List.Forall₂.nil)))
      [] sampleObjects).1.1⟩

/-- C7, as amended. `bpfObjects.Close` invokes `Close` on its resources in the order
`InspRstrx`, `TraceSendactive`, `TraceSendreset`, `InspTcpresetEvents`, `InspTcpresetStack`
and stops after the first one whose close returns an error: the resources closed are those
up to and including the first failing one. When no close fails, `Close` is invoked on all
five. The same holds of `bpfPrograms.Close` and `bpfMaps.Close` for their resources. -/
theorem Close_up_to_first_failure (o : bpfObjects) (closed : List Nat) :
    (o.Close closed).2 = closed ++ (upToFirstFailure o.handles).map Handle.fd ∧
    (o.bpfPrograms.Close closed).2 =
      closed ++ (upToFirstFailure [o.bpfPrograms.InspRstrx, o.bpfPrograms.TraceSendactive,
        o.bpfPrograms.TraceSendreset]).map Handle.fd ∧
    (o.bpfMaps.Close closed).2 =
      closed ++ (upToFirstFailure [o.bpfMaps.InspTcpresetEvents,
        o.bpfMaps.InspTcpresetStack]).map Handle.fd ∧
    ((∀ h ∈ o.handles, h.closeErr = none) →
      (o.Close closed).2 = closed ++ o.handles.map Handle.fd) := by
  have hall : ∀ hs : List Handle, (∀ h ∈ hs, h.closeErr = none) → upToFirstFailure hs = hs := by
    intro hs
    induction hs with
    | nil => intro _; rfl
    | cons h rest ih =>
      intro hn
      simp only [upToFirstFailure, hn h (List.mem_cons_self _ _), if_true]
      rw [ih (fun x hx => hn x (List.mem_cons_of_mem _ hx))]
  have ho : (o.Close closed).2 = closed ++ (upToFirstFailure o.handles).map Handle.fd := by
    rw [bpfObjects_Close_eq, BpfClose_handles]
  refine ⟨ho, ?_, ?_, ?_⟩
  · exact congrArg Prod.snd (BpfClose_handles [o.bpfPrograms.InspRstrx,
      o.bpfPrograms.TraceSendactive, o.bpfPrograms.TraceSendreset] closed)
  · exact congrArg Prod.snd (BpfClose_handles [o.bpfMaps.InspTcpresetEvents,
      o.bpfMaps.InspTcpresetStack] closed)
  · intro hn
    rw [ho, hall o.handles hn]

/-- C7, as stated, fails. When the close of `InspRstrx` returns an error,
`bpfObjects.Close` returns that error having invoked `Close` on `InspRstrx` only:
`TraceSendactive`, `TraceSendreset` and the two maps are not closed. -/
theorem Close_stops_at_first_failure :
    sampleObjects.Close [] = (some (.collaborator 1 "bad file descriptor"), [3]) ∧
    sampleObjects.bpfPrograms.TraceSendactive.fd ∉ (sampleObjects.Close []).2 ∧
    sampleObjects.bpfPrograms.TraceSendreset.fd ∉ (sampleObjects.Close []).2 ∧
    sampleObjects.bpfMaps.InspTcpresetEvents.fd ∉ (sampleObjects.Close []).2 ∧
    sampleObjects.bpfMaps.InspTcpresetStack.fd ∉ (sampleObjects.Close []).2 := by
  decide

end tracetcpreset
